import Mathlib

/-!
Shallow embedding of the hover-scrub image carousel implemented in
src/static_dev/js/carousel.js, together with proofs of the behavioural
properties stated in the repository specification.

Modelling conventions:
  - JS numbers used as indices and counts are modelled by Int
    (parseInt results), pointer coordinates and widths by Rat.
  - JSON.parse on the data-images attribute is a host primitive; its result
    is modelled as Option (List String): none models a parse exception
    (caught by the try/catch), some urls a successfully parsed array.
  - parseInt on data-total-images is modelled as Option Int: none models
    NaN (attribute missing or unparseable); the JS expression
    parseInt(...) || 1 maps NaN and 0 to 1 (both are falsy).
  - An img element in the carousel carries exactly one of the classes
    z-10 / z-0 (inserted images start with z-0; classList.replace keeps
    exactly one of the two present), so its stacking state is one Bool
    z10; replace(z-10, z-0) sets it false, replace(z-0, z-10) sets it
    true, matching classList.replace in both the hit and the no-op case.
  - A dot element carries the two classes bg-black / bg-black20
    independently (the code uses add/remove/replace on them), so both are
    tracked; classList.replace is conditional on the source class.
  - Each event listener invocation is one atomic state transition: the
    page is single threaded and every handler runs to completion.  The
    isProcessing / requestAnimationFrame throttle in the mousemove
    listener only coalesces bursts of events inside one frame; a handled
    mousemove event performs exactly the computation modelled here.
-/

namespace Carousel

/-- A run of consecutive naturals: natRange a n = [a, a+1, ..., a+n-1].
Used to model the for-loop of loadImages and index templates. -/
def natRange : Nat → Nat → List Nat
  | _, 0 => []
  | a, n + 1 => a :: natRange (a + 1) n

/-- An indicator dot element: whether it has class bg-black (active
styling), class bg-black/20 (inactive styling), and display:none. -/
structure Dot where
  bgBlack : Bool
  bgBlack20 : Bool
  hidden : Bool
  deriving Repr, DecidableEq

/-- Default dot returned for an out-of-range List.getD access; never an
actual element. -/
def dDefault : Dot := ⟨false, false, false⟩

/-- An img element inside the carousel container: its data-carousel-image
index, its src, its positioning classes, and whether it has class z-10
(top stacking) rather than z-0. -/
structure Img where
  idx : Int
  src : String
  pos : String
  z10 : Bool
  deriving Repr, DecidableEq

/-- The positioning classes given to lazily inserted images
(img.className minus the stacking class z-0). -/
def lazyPosClasses : String :=
  "absolute w-full h-full object-cover transition-all duration-200"

/-- The per-instance closure state of one initialized interactive
carousel: imagesUrl, totalImages, the dot elements, the img elements
currently in the container (document order), currentIndex and the
imagesLoaded flag. -/
structure CarouselState where
  imagesUrl : List String
  totalImages : Int
  dots : List Dot
  images : List Img
  currentIndex : Int
  imagesLoaded : Bool
  deriving Repr, DecidableEq

/-- A carousel container element before initialization:
  - parsedImages: outcome of JSON.parse on the cleaned data-images string
    (none = the parse throws and the catch block runs);
  - totalAttr: outcome of parseInt on data-total-images (none = NaN);
  - marked: whether the data-initialized attribute is set;
  - hasCard: whether carousel.closest(.card) finds an ancestor;
  - dots: the dot elements found under the card;
  - images: the img elements initially present in the container markup. -/
structure Container where
  parsedImages : Option (List String)
  totalAttr : Option Int
  marked : Bool
  hasCard : Bool
  dots : List Dot
  images : List Img
  deriving Repr, DecidableEq

/-- Result of running the initializer on one container: the container
as left in the document, the closure state when event listeners were
installed (none = no interactivity), and whether the catch block logged
a parse error.  The function being total models that no exception
escapes the initializer. -/
structure InitOutcome where
  container : Container
  widget : Option CarouselState
  loggedError : Bool
  deriving Repr, DecidableEq

/-- parseInt(carousel.dataset.totalImages, 10) || 1: NaN and 0 are falsy
and give 1. -/
def parseTotal : Option Int → Int
  | none => 1
  | some n => if n = 0 then 1 else n

/-- JSON.parse(...).filter(url => url and url !== ''): the empty string
is the only falsy string, so the filter keeps exactly the non-empty
entries. -/
def filterUrls (urls : List String) : List String :=
  urls.filter (fun u => !(u == ""))

/-- The hiding loop over dots: dot.style.display = none for every index
greater or equal totalImages (running index i). -/
def hideFrom : Nat → Int → List Dot → List Dot
  | _, _, [] => []
  | i, total, d :: rest =>
      (if total ≤ (i : Int) then { d with hidden := true } else d)
        :: hideFrom (i + 1) total rest

/-- Hide the extra dots, guarded as in the source by
totalImages !== dotElements.length. -/
def hideExtraDots (dots : List Dot) (total : Int) : List Dot :=
  if total = (dots.length : Int) then dots else hideFrom 0 total dots

/-- dotElements[0].classList.add(bg-black) followed by
classList.remove(bg-black/20), guarded by the existence of the dot. -/
def activateDot0 : List Dot → List Dot
  | [] => []
  | d :: rest => { d with bgBlack := true, bgBlack20 := false } :: rest

/-- The img elements appended by the loadImages for-loop: one per URL
index 1 .. length-1, src = imagesUrl[i], className gives the positioning
classes plus z-0. -/
def insertedImages (urls : List String) : List Img :=
  (natRange 1 (urls.length - 1)).map
    (fun (i : Nat) =>
      { idx := (i : Int), src := urls.getD i "", pos := lazyPosClasses, z10 := false })

/-- loadImages(): a no-op when imagesLoaded is already set; otherwise
appends one img element per URL index 1 .. length-1 to the container and
sets the flag. -/
def loadImages (s : CarouselState) : CarouselState :=
  if s.imagesLoaded then s
  else { s with images := s.images ++ insertedImages s.imagesUrl, imagesLoaded := true }

/-- classList.replace(z-10, z-0): under the exactly-one-stacking-class
encoding the element ends up with z-0 whether or not it had z-10. -/
def setZ0 (im : Img) : Img := { im with z10 := false }

/-- classList.replace(z-0, z-10): the element ends up with z-10. -/
def setZ10 (im : Img) : Img := { im with z10 := true }

/-- classList.replace(bg-black, bg-black/20) on a dot: only acts when
bg-black is present. -/
def demoteDot (d : Dot) : Dot :=
  if d.bgBlack then { d with bgBlack := false, bgBlack20 := true } else d

/-- classList.replace(bg-black/20, bg-black) on a dot: only acts when
bg-black/20 is present. -/
def promoteDot (d : Dot) : Dot :=
  if d.bgBlack20 then { d with bgBlack20 := false, bgBlack := true } else d

/-- carousel.querySelector([data-carousel-image = k]) followed by a
classList mutation of the found element: rewrite the first img whose
index attribute equals k, leave the list unchanged when none matches
(the null check in the source). -/
def updateFirstImg : List Img → Int → (Img → Img) → List Img
  | [], _, _ => []
  | im :: rest, k, f =>
      if im.idx == k then f im :: rest else im :: updateFirstImg rest k f

/-- Mutation of the element at one list position (dotElements[i]). -/
def dotModifyAt : List Dot → Nat → (Dot → Dot) → List Dot
  | [], _, _ => []
  | d :: rest, 0, f => f d :: rest
  | d :: rest, n + 1, f => d :: dotModifyAt rest n f

/-- dotElements[k] for an Int index k: defined (truthy) exactly when
0 ≤ k < length; otherwise the guarded mutation is skipped. -/
def dotAt (dots : List Dot) (k : Int) (f : Dot → Dot) : List Dot :=
  if 0 ≤ k then dotModifyAt dots k.toNat f else dots

/-- The body of updateCarousel after the early-out guard and the forced
load: query currentImg and nextImg, demote the current image and dot
(both guarded by currentImg being non-null, the dot also by
dotElements[currentIndex]), promote the next image and dot likewise, and
assign currentIndex. -/
def updateActive (s : CarouselState) (newIndex : Int) : CarouselState :=
  let curExists := s.images.any (fun im => im.idx == s.currentIndex)
  let nextExists := s.images.any (fun im => im.idx == newIndex)
  let images1 := updateFirstImg s.images s.currentIndex setZ0
  let dots1 := if curExists then dotAt s.dots s.currentIndex demoteDot else s.dots
  let images2 := updateFirstImg images1 newIndex setZ10
  let dots2 := if nextExists then dotAt dots1 newIndex promoteDot else dots1
  { s with images := images2, dots := dots2, currentIndex := newIndex }

/-- updateCarousel(newIndex): early return when newIndex equals
currentIndex or is out of range; otherwise force loadImages when the
extra images are missing and a positive index is requested, then apply
the class updates and assign currentIndex. -/
def updateCarousel (s : CarouselState) (newIndex : Int) : CarouselState :=
  if newIndex = s.currentIndex ∨ newIndex < 0 ∨ s.totalImages ≤ newIndex then s
  else
    updateActive
      (if s.imagesLoaded = false ∧ 0 < newIndex then loadImages s else s) newIndex

/-- The mousemove listener: ignore the event when the target lies in the
group/fire overlay; ignore a zero-width container; otherwise compute
zoneWidth = width / totalImages, zoneIndex = floor(relativeX /
zoneWidth), clamp to [0, totalImages - 1] and call updateCarousel. -/
def mousemoveHandler (s : CarouselState) (width relativeX : ℚ) (onFireOverlay : Bool) :
    CarouselState :=
  if onFireOverlay then s
  else if width = 0 then s
  else
    let zoneWidth : ℚ := width / (s.totalImages : ℚ)
    let zoneIndex : Int := ⌊relativeX / zoneWidth⌋
    let safeIndex : Int := max 0 (min zoneIndex (s.totalImages - 1))
    updateCarousel s safeIndex

/-- The events an initialized interactive carousel can receive, with the
data the corresponding listener reads from the DOM event: for mousemove
the container width, the pointer offset relative to the container left
edge, and whether the event target sits inside the group/fire overlay. -/
inductive Event where
  | mouseenter : Event
  | dotClick : Nat → Event
  | mousemove : ℚ → ℚ → Bool → Event
  | mouseleave : Event

/-- One listener invocation: mouseenter loads the images; a click on dot
i prevents default, loads the images and calls updateCarousel(i);
mousemove runs the zone computation; mouseleave calls updateCarousel(0). -/
def step (s : CarouselState) : Event → CarouselState
  | Event.mouseenter => loadImages s
  | Event.dotClick i => updateCarousel (loadImages s) (i : Int)
  | Event.mousemove w x fire => mousemoveHandler s w x fire
  | Event.mouseleave => updateCarousel s 0

/-- Initialization of a single container, the body of the forEach in
initCarousels.  A container already carrying data-initialized is not
selected at all and stays untouched.  Otherwise the attribute is set
first; a container outside any .card is skipped; a parse failure of
data-images is logged and skipped; with at most one image only the first
dot is activated; otherwise the closure state is built and the listeners
are installed, and the first dot is activated. -/
def initContainer (c : Container) : InitOutcome :=
  if c.marked then { container := c, widget := none, loggedError := false }
  else if !c.hasCard then
    { container := { c with marked := true }, widget := none, loggedError := false }
  else
    match c.parsedImages with
    | none =>
        { container := { c with marked := true }, widget := none, loggedError := true }
    | some urls =>
        if parseTotal c.totalAttr ≤ 1 then
          { container :=
              { c with marked := true
                       dots := activateDot0 (hideExtraDots c.dots (parseTotal c.totalAttr)) }
            widget := none, loggedError := false }
        else
          { container :=
              { c with marked := true
                       dots := activateDot0 (hideExtraDots c.dots (parseTotal c.totalAttr)) }
            widget := some
              { imagesUrl := filterUrls urls
                totalImages := parseTotal c.totalAttr
                dots := activateDot0 (hideExtraDots c.dots (parseTotal c.totalAttr))
                images := c.images
                currentIndex := 0
                imagesLoaded := false }
            loggedError := false }

/-- window.initCarousels over a scope: every matching container in the
scope is processed independently by the forEach body. -/
def initCarousels (cs : List Container) : List InitOutcome :=
  cs.map initContainer

/-- Modelled from the spec: the card markup (a Django template, not part
of src/) renders each indicator dot initially inactive, carrying the
class bg-black/20 and not bg-black, and visible. -/
def specDot : Dot := { bgBlack := false, bgBlack20 := true, hidden := false }

/-- Modelled from the spec: the markup renders the primary image (URL
index 0) eagerly, positioned like the lazily inserted ones but with top
stacking z-10. -/
def specPrimaryImg (src0 : String) : Img :=
  { idx := 0, src := src0, pos := lazyPosClasses, z10 := true }

/-- The stacking-relevant projection of an img element: its index
attribute and whether it is on top. -/
def projZ (im : Img) : Int × Bool := (im.idx, im.z10)

/-- The stacking pattern of a fully loaded container whose active index
is cur: one img per index 0 .. L-1, on top exactly at cur. -/
def zTemplate (L : Nat) (cur : Int) : List (Int × Bool) :=
  (natRange 0 L).map (fun (i : Nat) => ((i : Int), (i : Int) == cur))

/-- Abstract counterpart of updateFirstImg on index/stacking pairs. -/
def pairUpdateFirst : List (Int × Bool) → Int → (Int × Bool → Int × Bool) → List (Int × Bool)
  | [], _, _ => []
  | p :: rest, k, g =>
      if p.1 == k then g p :: rest else p :: pairUpdateFirst rest k g

/-- Well-formedness of a reachable interactive instance: the declared
total matches the parsed URL list, the current index is in range, there
are at least totalImages dots, dots carry the active styling exactly at
the current index, and the img elements form the template: the primary
alone before loading (with current index 0), one img per URL index with
top stacking exactly at the current index after loading. -/
structure WF (s : CarouselState) : Prop where
  total_eq : s.totalImages = (s.imagesUrl.length : Int)
  total_ge : 2 ≤ s.totalImages
  cur_lo : 0 ≤ s.currentIndex
  cur_hi : s.currentIndex < s.totalImages
  dots_len : s.totalImages ≤ (s.dots.length : Int)
  dots_in : ∀ j : Nat, j < s.dots.length → (j : Int) < s.totalImages →
    (s.dots.getD j dDefault).bgBlack = ((j : Int) == s.currentIndex) ∧
    (s.dots.getD j dDefault).bgBlack20 = !((j : Int) == s.currentIndex)
  dots_out : ∀ j : Nat, j < s.dots.length → s.totalImages ≤ (j : Int) →
    (s.dots.getD j dDefault).bgBlack = false
  imgs : if s.imagesLoaded = true
         then s.images.map projZ = zTemplate s.imagesUrl.length s.currentIndex
         else s.images.map projZ = [(0, true)] ∧ s.currentIndex = 0

/-- The index invariant alone: the current index is within bounds. -/
def IdxInv (s : CarouselState) : Prop :=
  0 ≤ s.currentIndex ∧ s.currentIndex < s.totalImages

/-- A concrete three-image card used to instantiate the theorems below:
JSON parse succeeds with three non-empty URLs, data-total-images is 3,
the markup carries three inactive dots and the eagerly rendered primary
image. -/
def wCont : Container :=
  { parsedImages := some ["a.jpg", "b.jpg", "c.jpg"]
    totalAttr := some 3
    marked := false
    hasCard := true
    dots := List.replicate 3 specDot
    images := [specPrimaryImg "a.jpg"] }

/-- The closure state the initializer builds for wCont. -/
def wState : CarouselState :=
  { imagesUrl := ["a.jpg", "b.jpg", "c.jpg"]
    totalImages := 3
    dots := [⟨true, false, false⟩, specDot, specDot]
    images := [specPrimaryImg "a.jpg"]
    currentIndex := 0
    imagesLoaded := false }

section Lemmas

lemma length_natRange (a n : Nat) : (natRange a n).length = n := by
  induction n generalizing a with
  | zero => rfl
  | succ n ih => simp [natRange, ih]

lemma mem_natRange {i a n : Nat} : i ∈ natRange a n ↔ a ≤ i ∧ i < a + n := by
  induction n generalizing a with
  | zero => simp [natRange]
  | succ n ih =>
    simp only [natRange, List.mem_cons, ih]
    omega

lemma map_projZ_updateFirstImg (l : List Img) (k : Int) (f : Img → Img)
    (g : Int × Bool → Int × Bool) (hf : ∀ im, projZ (f im) = g (projZ im)) :
    (updateFirstImg l k f).map projZ = pairUpdateFirst (l.map projZ) k g := by
  induction l with
  | nil => rfl
  | cons im rest ih =>
    have hfi := hf im
    simp only [projZ] at hfi
    by_cases h : im.idx == k
    · simp [updateFirstImg, pairUpdateFirst, projZ, h, hfi]
    · simp [updateFirstImg, pairUpdateFirst, projZ, h, ih]

lemma pairUpdateFirst_natRange (n a : Nat) (P : Nat → Bool) (k : Int) (b : Bool) :
    pairUpdateFirst ((natRange a n).map (fun (i : Nat) => ((i : Int), P i))) k (fun p => (p.1, b))
      = (natRange a n).map (fun (i : Nat) => ((i : Int), if (i : Int) == k then b else P i)) := by
  induction n generalizing a with
  | zero => rfl
  | succ n ih =>
    simp only [natRange, List.map_cons, pairUpdateFirst]
    by_cases h : (a : Int) = k
    · simp only [h, beq_self_eq_true, if_true]
      refine congrArg (fun t => _ :: t) ?_
      refine (List.map_congr_left ?_).symm
      intro i hi
      have hai : a + 1 ≤ i := (mem_natRange.mp hi).1
      have : ¬ ((i : Int) == k) := by
        simp only [beq_iff_eq, ← h]
        omega
      simp [this]
    · have hb : ((a : Int) == k) = false := by simp [h]
      simp only [hb, Bool.false_eq_true, if_false, ih]

lemma any_idx_of_template (l : List Img) (T : List (Int × Bool)) (k : Int)
    (hT : l.map projZ = T) :
    (l.any fun im => im.idx == k) = (T.any fun p => p.1 == k) := by
  subst hT
  induction l with
  | nil => rfl
  | cons im rest ih => simp [projZ, ih]

lemma any_fst_natRange (n a : Nat) (P : Nat → Bool) (k : Int)
    (h1 : (a : Int) ≤ k) (h2 : k < (a : Int) + n) :
    (((natRange a n).map (fun (i : Nat) => ((i : Int), P i))).any fun p => p.1 == k) = true := by
  rw [List.any_eq_true]
  have hk0 : 0 ≤ k := le_trans (Int.ofNat_nonneg a) h1
  have hkk : (k.toNat : Int) = k := Int.toNat_of_nonneg hk0
  refine ⟨((k.toNat : Int), P k.toNat), ?_, ?_⟩
  · exact List.mem_map_of_mem _ (mem_natRange.mpr (by omega))
  · simp [hkk]

lemma length_filter_of_map {α β : Type} (l : List α) (g : α → β)
    (p : α → Bool) (q : β → Bool) (hpq : ∀ a, p a = q (g a)) :
    (l.filter p).length = ((l.map g).filter q).length := by
  induction l with
  | nil => rfl
  | cons a rest ih =>
    simp only [List.filter_cons, List.map_cons, hpq a]
    by_cases h : q (g a) = true
    · simp [h, ih]
    · simp [h, ih]

lemma length_filter_natRange (n a : Nat) (k : Int) :
    ((natRange a n).filter (fun (i : Nat) => (i : Int) == k)).length
      = if (a : Int) ≤ k ∧ k < (a : Int) + n then 1 else 0 := by
  induction n generalizing a with
  | zero =>
    simp only [natRange, List.filter_nil, List.length_nil]
    rw [if_neg (by push_cast; omega)]
  | succ n ih =>
    simp only [natRange, List.filter_cons]
    by_cases h : (a : Int) = k
    · have hb : ((a : Int) == k) = true := by simp [h]
      rw [hb]
      simp only [if_true, List.length_cons, ih (a + 1)]
      rw [if_neg (by push_cast; omega)]
      rw [if_pos (by push_cast; omega)]
    · have hb : ((a : Int) == k) = false := by simp [h]
      rw [hb]
      simp only [Bool.false_eq_true, if_false, ih (a + 1)]
      by_cases h2 : ((a + 1 : Nat) : Int) ≤ k ∧ k < ((a + 1 : Nat) : Int) + (n : Int)
      · rw [if_pos h2, if_pos (by push_cast at h2 ⊢; omega)]
      · rw [if_neg h2, if_neg (by push_cast at h2 ⊢; omega)]

lemma length_dotModifyAt (l : List Dot) (n : Nat) (f : Dot → Dot) :
    (dotModifyAt l n f).length = l.length := by
  induction l generalizing n with
  | nil => rfl
  | cons d rest ih =>
    cases n with
    | zero => rfl
    | succ n => simp [dotModifyAt, ih]

lemma getD_dotModifyAt_ne (l : List Dot) (n j : Nat) (f : Dot → Dot) (hj : j ≠ n) :
    (dotModifyAt l n f).getD j dDefault = l.getD j dDefault := by
  induction l generalizing n j with
  | nil => rfl
  | cons d rest ih =>
    cases n with
    | zero =>
      cases j with
      | zero => omega
      | succ j => rfl
    | succ n =>
      cases j with
      | zero => rfl
      | succ j =>
        simp only [dotModifyAt, List.getD_cons_succ]
        exact ih n j (by omega)

lemma getD_dotModifyAt_eq (l : List Dot) (n : Nat) (f : Dot → Dot) (hn : n < l.length) :
    (dotModifyAt l n f).getD n dDefault = f (l.getD n dDefault) := by
  induction l generalizing n with
  | nil => simp at hn
  | cons d rest ih =>
    cases n with
    | zero => rfl
    | succ n =>
      simp only [dotModifyAt, List.getD_cons_succ]
      exact ih n (by simpa using hn)

lemma getD_of_length_le (l : List Dot) (j : Nat) (h : l.length ≤ j) :
    l.getD j dDefault = dDefault := by
  induction l generalizing j with
  | nil => rfl
  | cons d rest ih =>
    cases j with
    | zero => simp at h
    | succ j =>
      simp only [List.getD_cons_succ]
      exact ih j (by simpa using h)

end Lemmas

section Preservation

lemma loadImages_currentIndex (s : CarouselState) :
    (loadImages s).currentIndex = s.currentIndex := by
  by_cases h : s.imagesLoaded = true <;> simp [loadImages, h]

lemma loadImages_totalImages (s : CarouselState) :
    (loadImages s).totalImages = s.totalImages := by
  by_cases h : s.imagesLoaded = true <;> simp [loadImages, h]

lemma loadImages_imagesUrl (s : CarouselState) :
    (loadImages s).imagesUrl = s.imagesUrl := by
  by_cases h : s.imagesLoaded = true <;> simp [loadImages, h]

lemma loadImages_dots (s : CarouselState) : (loadImages s).dots = s.dots := by
  by_cases h : s.imagesLoaded = true <;> simp [loadImages, h]

lemma loadImages_loaded (s : CarouselState) : (loadImages s).imagesLoaded = true := by
  by_cases h : s.imagesLoaded = true <;> simp [loadImages, h]

lemma loadImages_idem (s : CarouselState) : loadImages (loadImages s) = loadImages s := by
  have h := loadImages_loaded s
  conv_lhs => rw [loadImages]
  rw [if_pos h]

lemma map_projZ_insertedImages (urls : List String) :
    (insertedImages urls).map projZ
      = (natRange 1 (urls.length - 1)).map (fun (i : Nat) => ((i : Int), false)) := by
  rw [insertedImages, List.map_map]
  exact List.map_congr_left (fun i _ => rfl)

lemma zTemplate_zero_expand (L : Nat) (hL : 1 ≤ L) :
    zTemplate L 0
      = (0, true) :: (natRange 1 (L - 1)).map (fun (i : Nat) => ((i : Int), false)) := by
  obtain ⟨M, rfl⟩ : ∃ M, L = M + 1 := ⟨L - 1, by omega⟩
  simp only [zTemplate, natRange, List.map_cons, Nat.add_sub_cancel]
  congr 1
  refine List.map_congr_left ?_
  intro i hi
  have h1 : 1 ≤ i := (mem_natRange.mp hi).1
  have hz : ((i : Int) == 0) = false := by
    simp only [beq_eq_false_iff_ne, ne_eq]
    omega
  simp [hz]

lemma loadImages_WF (s : CarouselState) (h : WF s) : WF (loadImages s) := by
  by_cases hl : s.imagesLoaded = true
  · rw [loadImages, if_pos hl]
    exact h
  · have himgs := h.imgs
    rw [if_neg hl] at himgs
    obtain ⟨hmap, hcur⟩ := himgs
    have hL : 2 ≤ s.imagesUrl.length := by
      have h1 := h.total_eq
      have h2 := h.total_ge
      omega
    rw [loadImages, if_neg hl]
    refine ⟨h.total_eq, h.total_ge, h.cur_lo, h.cur_hi, h.dots_len, h.dots_in, h.dots_out, ?_⟩
    rw [if_pos rfl]
    show (s.images ++ insertedImages s.imagesUrl).map projZ
      = zTemplate s.imagesUrl.length s.currentIndex
    rw [List.map_append, hmap, map_projZ_insertedImages, hcur,
        zTemplate_zero_expand _ (by omega)]
    rfl

lemma updateActive_eq_of_exists (s : CarouselState) (k : Int)
    (hc : (s.images.any fun im => im.idx == s.currentIndex) = true)
    (hn : (s.images.any fun im => im.idx == k) = true) :
    updateActive s k =
      { s with
        images := updateFirstImg (updateFirstImg s.images s.currentIndex setZ0) k setZ10
        dots := dotAt (dotAt s.dots s.currentIndex demoteDot) k promoteDot
        currentIndex := k } := by
  rw [updateActive]
  simp only [hc, hn, if_true]

lemma map_projZ_after_update (l : List Img) (L : Nat) (cur k : Int)
    (hmap : l.map projZ = zTemplate L cur) :
    (updateFirstImg (updateFirstImg l cur setZ0) k setZ10).map projZ = zTemplate L k := by
  have h1 : (updateFirstImg l cur setZ0).map projZ
      = pairUpdateFirst (l.map projZ) cur (fun p => (p.1, false)) :=
    map_projZ_updateFirstImg l cur setZ0 _ (fun im => rfl)
  rw [hmap, zTemplate, pairUpdateFirst_natRange] at h1
  have h1' : (updateFirstImg l cur setZ0).map projZ
      = (natRange 0 L).map (fun (i : Nat) => ((i : Int), false)) := by
    rw [h1]
    refine List.map_congr_left ?_
    intro i _
    by_cases hic : ((i : Int) == cur) = true
    · simp [hic]
    · simp only [Bool.not_eq_true] at hic
      simp [hic]
  have h2 : (updateFirstImg (updateFirstImg l cur setZ0) k setZ10).map projZ
      = pairUpdateFirst ((updateFirstImg l cur setZ0).map projZ) k (fun p => (p.1, true)) :=
    map_projZ_updateFirstImg _ k setZ10 _ (fun im => rfl)
  rw [h1', pairUpdateFirst_natRange] at h2
  rw [h2, zTemplate]
  refine List.map_congr_left ?_
  intro i _
  by_cases hik : ((i : Int) == k) = true
  · simp [hik]
  · simp only [Bool.not_eq_true] at hik
    simp [hik]

lemma length_dotAt (l : List Dot) (k : Int) (f : Dot → Dot) :
    (dotAt l k f).length = l.length := by
  rw [dotAt]
  split
  · exact length_dotModifyAt l k.toNat f
  · rfl

lemma updateActive_WF (s : CarouselState) (k : Int) (h : WF s)
    (hl : s.imagesLoaded = true) (hk0 : 0 ≤ k) (hkN : k < s.totalImages)
    (hne : k ≠ s.currentIndex) :
    WF (updateActive s k) := by
  have hco := h.cur_lo
  have hch := h.cur_hi
  have hte := h.total_eq
  have hdl := h.dots_len
  have hmap : s.images.map projZ = zTemplate s.imagesUrl.length s.currentIndex := by
    have hi := h.imgs
    rwa [if_pos hl] at hi
  have hcurEx : (s.images.any fun im => im.idx == s.currentIndex) = true := by
    rw [any_idx_of_template _ _ _ hmap, zTemplate]
    exact any_fst_natRange _ 0 _ _ (by push_cast; omega) (by push_cast; omega)
  have hnextEx : (s.images.any fun im => im.idx == k) = true := by
    rw [any_idx_of_template _ _ _ hmap, zTemplate]
    exact any_fst_natRange _ 0 _ _ (by push_cast; omega) (by push_cast; omega)
  have hcn : (s.currentIndex.toNat : Int) = s.currentIndex := Int.toNat_of_nonneg hco
  have hkn : (k.toNat : Int) = k := Int.toNat_of_nonneg hk0
  have hcnkn : s.currentIndex.toNat ≠ k.toNat := by
    intro hh
    exact hne (by omega)
  have hcnlen : s.currentIndex.toNat < s.dots.length := by omega
  have hknlen : k.toNat < s.dots.length := by omega
  have hdcur : dotAt s.dots s.currentIndex demoteDot
      = dotModifyAt s.dots s.currentIndex.toNat demoteDot := by
    rw [dotAt, if_pos hco]
  have hdnext : ∀ l : List Dot, dotAt l k promoteDot = dotModifyAt l k.toNat promoteDot := by
    intro l
    rw [dotAt, if_pos hk0]
  rw [updateActive_eq_of_exists s k hcurEx hnextEx]
  have hdotsrw : dotAt (dotAt s.dots s.currentIndex demoteDot) k promoteDot
      = dotModifyAt (dotModifyAt s.dots s.currentIndex.toNat demoteDot) k.toNat promoteDot := by
    rw [hdcur, hdnext]
  have hlen2 : (dotModifyAt (dotModifyAt s.dots s.currentIndex.toNat demoteDot)
      k.toNat promoteDot).length = s.dots.length := by
    rw [length_dotModifyAt, length_dotModifyAt]
  refine ⟨hte, h.total_ge, hk0, hkN, ?_, ?_, ?_, ?_⟩
  · show s.totalImages ≤ ((dotAt (dotAt s.dots s.currentIndex demoteDot) k promoteDot).length : Int)
    rw [hdotsrw, hlen2]
    exact hdl
  · intro j hjlen hjtot
    rw [hdotsrw] at hjlen ⊢
    rw [hlen2] at hjlen
    by_cases hjk : j = k.toNat
    · subst hjk
      rw [getD_dotModifyAt_eq _ _ _ (by rw [length_dotModifyAt]; exact hknlen)]
      rw [getD_dotModifyAt_ne _ _ _ _ (by omega)]
      obtain ⟨hb, hb20⟩ := h.dots_in k.toNat hknlen (by omega)
      have hkcur : ((k.toNat : Int) == s.currentIndex) = false := by
        simp only [beq_eq_false_iff_ne, ne_eq, hkn]
        exact hne
      rw [hkcur] at hb20
      rw [promoteDot, if_pos (by rw [hb20]; rfl)]
      constructor
      · show true = ((k.toNat : Int) == k)
        simp [hkn]
      · show false = !((k.toNat : Int) == k)
        simp [hkn]
    · rw [getD_dotModifyAt_ne _ _ _ _ hjk]
      by_cases hjc : j = s.currentIndex.toNat
      · subst hjc
        rw [getD_dotModifyAt_eq _ _ _ hcnlen]
        obtain ⟨hb, hb20⟩ := h.dots_in s.currentIndex.toNat hcnlen (by omega)
        have hccur : ((s.currentIndex.toNat : Int) == s.currentIndex) = true := by
          simp [hcn]
        rw [hccur] at hb
        rw [demoteDot, if_pos (by rw [hb])]
        have hjk2 : ((s.currentIndex.toNat : Int) == k) = false := by
          simp only [beq_eq_false_iff_ne, ne_eq, hcn]
          omega
        constructor
        · show false = ((s.currentIndex.toNat : Int) == k)
          rw [hjk2]
        · show true = !((s.currentIndex.toNat : Int) == k)
          rw [hjk2]
          rfl
      · rw [getD_dotModifyAt_ne _ _ _ _ hjc]
        obtain ⟨hb, hb20⟩ := h.dots_in j hjlen hjtot
        have hjcur : ((j : Int) == s.currentIndex) = false := by
          simp only [beq_eq_false_iff_ne, ne_eq]
          omega
        have hjk2 : ((j : Int) == k) = false := by
          simp only [beq_eq_false_iff_ne, ne_eq]
          omega
        rw [hjcur] at hb hb20
        rw [hjk2]
        exact ⟨hb, hb20⟩
  · intro j hjlen hjtot
    have hjtot2 : s.totalImages ≤ (j : Int) := hjtot
    rw [hdotsrw] at hjlen ⊢
    rw [hlen2] at hjlen
    rw [getD_dotModifyAt_ne _ _ _ _ (by omega)]
    rw [getD_dotModifyAt_ne _ _ _ _ (by omega)]
    exact h.dots_out j hjlen hjtot2
  · rw [if_pos hl]
    show (updateFirstImg (updateFirstImg s.images s.currentIndex setZ0) k setZ10).map projZ
      = zTemplate s.imagesUrl.length k
    exact map_projZ_after_update s.images s.imagesUrl.length s.currentIndex k hmap

lemma updateCarousel_WF (s : CarouselState) (k : Int) (h : WF s) :
    WF (updateCarousel s k) := by
  rw [updateCarousel]
  by_cases hg : k = s.currentIndex ∨ k < 0 ∨ s.totalImages ≤ k
  · rw [if_pos hg]
    exact h
  · rw [if_neg hg]
    push_neg at hg
    obtain ⟨hne, hk0, hkN⟩ := hg
    by_cases hl : s.imagesLoaded = true
    · rw [if_neg (by simp [hl])]
      exact updateActive_WF s k h hl hk0 hkN hne
    · have hl' : s.imagesLoaded = false := by simpa using hl
      have hcur0 : s.currentIndex = 0 := by
        have hi := h.imgs
        rw [if_neg hl] at hi
        exact hi.2
      have hkpos : 0 < k := by
        have : k ≠ 0 := by rw [← hcur0]; exact hne
        omega
      rw [if_pos ⟨hl', hkpos⟩]
      refine updateActive_WF (loadImages s) k (loadImages_WF s h) (loadImages_loaded s) hk0 ?_ ?_
      · rw [loadImages_totalImages]
        exact hkN
      · rw [loadImages_currentIndex]
        exact hne

lemma updateCarousel_cur (s : CarouselState) (k : Int)
    (hk0 : 0 ≤ k) (hkN : k < s.totalImages) :
    (updateCarousel s k).currentIndex = k := by
  rw [updateCarousel]
  by_cases hg : k = s.currentIndex ∨ k < 0 ∨ s.totalImages ≤ k
  · rw [if_pos hg]
    rcases hg with hg | hg | hg
    · exact hg.symm
    · omega
    · omega
  · rw [if_neg hg]
    rfl

lemma updateCarousel_totalImages (s : CarouselState) (k : Int) :
    (updateCarousel s k).totalImages = s.totalImages := by
  rw [updateCarousel]
  by_cases hg : k = s.currentIndex ∨ k < 0 ∨ s.totalImages ≤ k
  · rw [if_pos hg]
  · rw [if_neg hg]
    by_cases hc : s.imagesLoaded = false ∧ 0 < k
    · rw [if_pos hc]
      show (loadImages s).totalImages = s.totalImages
      exact loadImages_totalImages s
    · rw [if_neg hc]
      rfl

lemma step_WF (s : CarouselState) (e : Event) (h : WF s) : WF (step s e) := by
  cases e with
  | mouseenter => exact loadImages_WF s h
  | dotClick i => exact updateCarousel_WF _ _ (loadImages_WF s h)
  | mousemove w x fire =>
    rw [step, mousemoveHandler]
    by_cases hf : fire = true
    · rw [if_pos hf]
      exact h
    · rw [if_neg hf]
      by_cases hw : w = 0
      · rw [if_pos hw]
        exact h
      · rw [if_neg hw]
        exact updateCarousel_WF _ _ h
  | mouseleave => exact updateCarousel_WF _ _ h

lemma foldl_step_WF (s : CarouselState) (trace : List Event) (h : WF s) :
    WF (trace.foldl step s) := by
  induction trace generalizing s with
  | nil => exact h
  | cons e rest ih => exact ih (step s e) (step_WF s e h)

end Preservation

section Derived

lemma updateCarousel_imagesUrl (s : CarouselState) (k : Int) :
    (updateCarousel s k).imagesUrl = s.imagesUrl := by
  rw [updateCarousel]
  by_cases hg : k = s.currentIndex ∨ k < 0 ∨ s.totalImages ≤ k
  · rw [if_pos hg]
  · rw [if_neg hg]
    by_cases hc : s.imagesLoaded = false ∧ 0 < k
    · rw [if_pos hc]
      show (loadImages s).imagesUrl = s.imagesUrl
      exact loadImages_imagesUrl s
    · rw [if_neg hc]
      rfl

lemma updateCarousel_active_loaded (s : CarouselState) (i : Int) (h : WF s)
    (hne : i ≠ s.currentIndex) (h0 : 0 ≤ i) (hN : i < s.totalImages) :
    (updateCarousel s i).imagesLoaded = true := by
  rw [updateCarousel, if_neg (by push_neg; exact ⟨hne, by omega, by omega⟩)]
  by_cases hc : s.imagesLoaded = false ∧ 0 < i
  · rw [if_pos hc]
    show (loadImages s).imagesLoaded = true
    exact loadImages_loaded s
  · rw [if_neg hc]
    show s.imagesLoaded = true
    by_cases hl : s.imagesLoaded = true
    · exact hl
    · exfalso
      have hl' : s.imagesLoaded = false := by simpa using hl
      have hi0 : ¬ 0 < i := fun hpos => hc ⟨hl', hpos⟩
      have hcur0 : s.currentIndex = 0 := by
        have hh := h.imgs
        rw [if_neg hl] at hh
        exact hh.2
      exact hne (by omega)

lemma mousemoveHandler_eq (s : CarouselState) (W x : ℚ) (hW : W ≠ 0) :
    mousemoveHandler s W x false
      = updateCarousel s
          (max 0 (min ⌊x / (W / (s.totalImages : ℚ))⌋ (s.totalImages - 1))) := by
  rw [mousemoveHandler, if_neg (by simp), if_neg hW]

lemma loadImages_IdxInv (s : CarouselState) (h : IdxInv s) : IdxInv (loadImages s) := by
  constructor
  · rw [loadImages_currentIndex]
    exact h.1
  · rw [loadImages_currentIndex, loadImages_totalImages]
    exact h.2

lemma updateCarousel_IdxInv (s : CarouselState) (k : Int) (h : IdxInv s) :
    IdxInv (updateCarousel s k) := by
  rw [updateCarousel]
  by_cases hg : k = s.currentIndex ∨ k < 0 ∨ s.totalImages ≤ k
  · rw [if_pos hg]
    exact h
  · rw [if_neg hg]
    push_neg at hg
    obtain ⟨_, hk0, hkN⟩ := hg
    by_cases hc : s.imagesLoaded = false ∧ 0 < k
    · rw [if_pos hc]
      refine ⟨hk0, ?_⟩
      show k < (loadImages s).totalImages
      rw [loadImages_totalImages]
      exact hkN
    · rw [if_neg hc]
      exact ⟨hk0, hkN⟩

lemma step_IdxInv (s : CarouselState) (e : Event) (h : IdxInv s) : IdxInv (step s e) := by
  cases e with
  | mouseenter => exact loadImages_IdxInv s h
  | dotClick i => exact updateCarousel_IdxInv _ _ (loadImages_IdxInv s h)
  | mousemove w x fire =>
    rw [step, mousemoveHandler]
    by_cases hf : fire = true
    · rw [if_pos hf]
      exact h
    · rw [if_neg hf]
      by_cases hw : w = 0
      · rw [if_pos hw]
        exact h
      · rw [if_neg hw]
        exact updateCarousel_IdxInv _ _ h
  | mouseleave => exact updateCarousel_IdxInv _ _ h

lemma foldl_step_IdxInv (s : CarouselState) (trace : List Event) (h : IdxInv s) :
    IdxInv (trace.foldl step s) := by
  induction trace generalizing s with
  | nil => exact h
  | cons e rest ih => exact ih (step s e) (step_IdxInv s e h)

lemma initContainer_widget_some (c : Container) (s0 : CarouselState)
    (h : (initContainer c).widget = some s0) :
    c.marked = false ∧ c.hasCard = true ∧
    ∃ urls, c.parsedImages = some urls ∧ 1 < parseTotal c.totalAttr ∧
      s0 = { imagesUrl := filterUrls urls
             totalImages := parseTotal c.totalAttr
             dots := activateDot0 (hideExtraDots c.dots (parseTotal c.totalAttr))
             images := c.images
             currentIndex := 0
             imagesLoaded := false } := by
  rw [initContainer] at h
  split at h
  · simp at h
  next h1 =>
  split at h
  next h2 =>
    simp at h
  next h2 =>
  split at h
  next heq =>
    simp at h
  next urls heq =>
  split at h
  next h3 =>
    simp at h
  next h3 =>
    simp only [Option.some_inj] at h
    have hcard : c.hasCard = true := by
      simpa using h2
    exact ⟨by simpa using h1, hcard, urls, heq, by omega, h.symm⟩

lemma length_filter_z10_of_template (l : List Img) (L : Nat) (cur : Int)
    (hmap : l.map projZ = zTemplate L cur) (h0 : 0 ≤ cur) (hL : cur < (L : Int)) :
    (l.filter fun im => im.z10).length = 1 := by
  have h1 : (l.filter fun im => im.z10).length
      = ((l.map projZ).filter fun p => p.2).length :=
    length_filter_of_map l projZ _ _ (fun im => rfl)
  rw [hmap, zTemplate] at h1
  have h2 : ((natRange 0 L).filter (fun (i : Nat) => (i : Int) == cur)).length
      = (((natRange 0 L).map (fun (i : Nat) => ((i : Int), (i : Int) == cur))).filter
          fun p => p.2).length :=
    length_filter_of_map (natRange 0 L) _ _ _ (fun i => rfl)
  rw [h1, ← h2, length_filter_natRange]
  rw [if_pos (by push_cast; omega)]

lemma z10_idx_of_template (l : List Img) (L : Nat) (cur : Int)
    (hmap : l.map projZ = zTemplate L cur) :
    ∀ im ∈ l, im.z10 = true → im.idx = cur := by
  intro im hmem hz
  have hmm : projZ im ∈ zTemplate L cur := by
    rw [← hmap]
    exact List.mem_map_of_mem projZ hmem
  rw [zTemplate] at hmm
  obtain ⟨i, _, hpe⟩ := List.mem_map.mp hmm
  have hfst : (i : Int) = im.idx := congrArg Prod.fst hpe
  have hsnd : ((i : Int) == cur) = im.z10 := congrArg Prod.snd hpe
  rw [hz] at hsnd
  have : (i : Int) = cur := by
    have := beq_iff_eq.mp hsnd
    exact this
  omega

lemma images_conclusions_of_WF (s : CarouselState) (h : WF s) :
    ((s.images.filter fun im => im.z10).length = 1) ∧
    (∀ im ∈ s.images, im.z10 = true → im.idx = s.currentIndex) := by
  by_cases hl : s.imagesLoaded = true
  · have hmap : s.images.map projZ = zTemplate s.imagesUrl.length s.currentIndex := by
      have hh := h.imgs
      rwa [if_pos hl] at hh
    have hte := h.total_eq
    have hch := h.cur_hi
    refine ⟨length_filter_z10_of_template _ _ _ hmap h.cur_lo (by omega), ?_⟩
    exact z10_idx_of_template _ _ _ hmap
  · have hh := h.imgs
    rw [if_neg hl] at hh
    obtain ⟨hmap, hcur⟩ := hh
    have hlen : s.images.length = 1 := by
      have := congrArg List.length hmap
      simpa using this
    match hI : s.images with
    | [im] =>
      rw [hI] at hmap
      simp only [List.map_cons, List.map_nil, List.cons.injEq] at hmap
      have hidx : im.idx = 0 := congrArg Prod.fst hmap.1
      have hz : im.z10 = true := congrArg Prod.snd hmap.1
      constructor
      · simp [List.filter, hz]
      · intro im2 hmem hz2
        simp only [List.mem_singleton] at hmem
        rw [hmem, hidx, hcur]
    | [] => rw [hI] at hlen; simp at hlen
    | im :: im2 :: rest => rw [hI] at hlen; simp at hlen

lemma filter_bgBlack_nil_of_false (l : List Dot)
    (hp : ∀ j, j < l.length → (l.getD j dDefault).bgBlack = false) :
    (l.filter fun d => d.bgBlack).length = 0 := by
  induction l with
  | nil => rfl
  | cons d rest ih =>
    have hd : d.bgBlack = false := hp 0 (by simp)
    simp only [List.filter_cons, hd, Bool.false_eq_true, if_false]
    refine ih ?_
    intro j hj
    have := hp (j + 1) (by simpa using Nat.succ_lt_succ hj)
    simpa using this

lemma length_filter_bgBlack (l : List Dot) (m : Nat) (hm : m < l.length)
    (hp : ∀ j, j < l.length → ((l.getD j dDefault).bgBlack = true ↔ j = m)) :
    (l.filter fun d => d.bgBlack).length = 1 := by
  induction l generalizing m with
  | nil => simp at hm
  | cons d rest ih =>
    cases m with
    | zero =>
      have hd : d.bgBlack = true := (hp 0 (by simp)).mpr rfl
      simp only [List.filter_cons, hd, if_true, List.length_cons]
      have : (rest.filter fun d => d.bgBlack).length = 0 := by
        refine filter_bgBlack_nil_of_false rest ?_
        intro j hj
        have hj1 := hp (j + 1) (by simpa using Nat.succ_lt_succ hj)
        simp only [List.getD_cons_succ] at hj1
        by_cases hb : (rest.getD j dDefault).bgBlack = true
        · exact absurd (hj1.mp hb) (by omega)
        · simpa using hb
      omega
    | succ m =>
      have hd : d.bgBlack = false := by
        have h0 := hp 0 (by simp)
        by_cases hb : d.bgBlack = true
        · exact absurd (h0.mp (by simpa using hb)) (by omega)
        · simpa using hb
      simp only [List.filter_cons, hd, Bool.false_eq_true, if_false]
      refine ih m (by simpa using hm) ?_
      intro j hj
      have := hp (j + 1) (by simpa using Nat.succ_lt_succ hj)
      simp only [List.getD_cons_succ] at this
      rw [this]
      omega

lemma dots_conclusions_of_WF (s : CarouselState) (h : WF s) :
    ((s.dots.filter fun d => d.bgBlack).length = 1) ∧
    (s.dots.getD s.currentIndex.toNat dDefault).bgBlack = true := by
  have hco := h.cur_lo
  have hch := h.cur_hi
  have hdl := h.dots_len
  have hcn : (s.currentIndex.toNat : Int) = s.currentIndex := Int.toNat_of_nonneg hco
  have hcnlen : s.currentIndex.toNat < s.dots.length := by omega
  have hact : (s.dots.getD s.currentIndex.toNat dDefault).bgBlack = true := by
    obtain ⟨hb, _⟩ := h.dots_in s.currentIndex.toNat hcnlen (by omega)
    rw [hb]
    simp [hcn]
  refine ⟨?_, hact⟩
  refine length_filter_bgBlack s.dots s.currentIndex.toNat hcnlen ?_
  intro j hj
  by_cases hjt : (j : Int) < s.totalImages
  · obtain ⟨hb, _⟩ := h.dots_in j hj hjt
    rw [hb]
    constructor
    · intro hbe
      have := beq_iff_eq.mp hbe
      omega
    · intro hje
      subst hje
      simp [hcn]
  · have hb := h.dots_out j hj (by omega)
    rw [hb]
    constructor
    · intro hf
      exact absurd hf (by simp)
    · intro hje
      subst hje
      omega

end Derived

section InitLemmas

lemma length_hideFrom (i : Nat) (t : Int) (l : List Dot) :
    (hideFrom i t l).length = l.length := by
  induction l generalizing i with
  | nil => rfl
  | cons d rest ih => simp [hideFrom, ih]

lemma length_hideExtraDots (l : List Dot) (t : Int) :
    (hideExtraDots l t).length = l.length := by
  rw [hideExtraDots]
  split
  · rfl
  · exact length_hideFrom 0 t l

lemma length_activateDot0 (l : List Dot) : (activateDot0 l).length = l.length := by
  cases l <;> rfl

lemma getD_hideFrom_bg (i : Nat) (t : Int) (l : List Dot) (j : Nat) :
    ((hideFrom i t l).getD j dDefault).bgBlack = (l.getD j dDefault).bgBlack ∧
    ((hideFrom i t l).getD j dDefault).bgBlack20 = (l.getD j dDefault).bgBlack20 := by
  induction l generalizing i j with
  | nil => exact ⟨rfl, rfl⟩
  | cons d rest ih =>
    cases j with
    | zero =>
      simp only [hideFrom, List.getD_cons_zero]
      split <;> exact ⟨rfl, rfl⟩
    | succ j =>
      simp only [hideFrom, List.getD_cons_succ]
      exact ih (i + 1) j

lemma getD_hideExtraDots_bg (l : List Dot) (t : Int) (j : Nat) :
    ((hideExtraDots l t).getD j dDefault).bgBlack = (l.getD j dDefault).bgBlack ∧
    ((hideExtraDots l t).getD j dDefault).bgBlack20 = (l.getD j dDefault).bgBlack20 := by
  rw [hideExtraDots]
  split
  · exact ⟨rfl, rfl⟩
  · exact getD_hideFrom_bg 0 t l j

lemma getD_activateDot0_zero (l : List Dot) (hl : l ≠ []) :
    ((activateDot0 l).getD 0 dDefault).bgBlack = true ∧
    ((activateDot0 l).getD 0 dDefault).bgBlack20 = false := by
  cases l with
  | nil => exact absurd rfl hl
  | cons d rest => exact ⟨rfl, rfl⟩

lemma getD_activateDot0_succ (l : List Dot) (j : Nat) :
    (activateDot0 l).getD (j + 1) dDefault = l.getD (j + 1) dDefault := by
  cases l <;> rfl

lemma getD_replicate_dot (n j : Nat) (a : Dot) :
    (List.replicate n a).getD j dDefault = if j < n then a else dDefault := by
  induction n generalizing j with
  | zero => simp
  | succ n ih =>
    cases j with
    | zero => simp [List.replicate]
    | succ j =>
      simp only [List.replicate, List.getD_cons_succ, ih]
      by_cases h : j < n
      · rw [if_pos h, if_pos (by omega)]
      · rw [if_neg h, if_neg (by omega)]

/-- The non-interactive branch of initialization (totalImages at most 1):
the container is marked, extra dots are hidden, the first dot is
activated, no closure is built. -/
lemma init_nonInteractive (c : Container) (urls : List String)
    (hm : c.marked = false) (hc : c.hasCard = true)
    (hp : c.parsedImages = some urls) (ht : parseTotal c.totalAttr ≤ 1) :
    initContainer c =
      { container :=
          { c with marked := true
                   dots := activateDot0 (hideExtraDots c.dots (parseTotal c.totalAttr)) }
        widget := none
        loggedError := false } := by
  rw [initContainer, if_neg (by simp [hm]), if_neg (by simp [hc]), hp]
  exact if_pos ht

/-- The initial closure state of an interactive instance built on the
spec-modelled markup is well formed. -/
lemma init_WF (c : Container) (urls : List String) (src0 : String) (dn : Nat)
    (s0 : CarouselState)
    (ht : c.totalAttr = some ((filterUrls urls).length : Int))
    (hL : 2 ≤ (filterUrls urls).length)
    (hd : c.dots = List.replicate dn specDot)
    (hdn : (filterUrls urls).length ≤ dn)
    (hi : c.images = [specPrimaryImg src0])
    (hs : s0 = { imagesUrl := filterUrls urls
                 totalImages := parseTotal c.totalAttr
                 dots := activateDot0 (hideExtraDots c.dots (parseTotal c.totalAttr))
                 images := c.images
                 currentIndex := 0
                 imagesLoaded := false }) :
    WF s0 := by
  have hpt : parseTotal c.totalAttr = ((filterUrls urls).length : Int) := by
    rw [ht, parseTotal]
    rw [if_neg (by omega)]
  subst hs
  have hlen : (activateDot0 (hideExtraDots c.dots (parseTotal c.totalAttr))).length = dn := by
    rw [length_activateDot0, length_hideExtraDots, hd, List.length_replicate]
  have hne : activateDot0 (hideExtraDots c.dots (parseTotal c.totalAttr)) ≠ [] := by
    intro hnil
    rw [hnil] at hlen
    simp at hlen
    omega
  have hgd : ∀ j : Nat, 1 ≤ j →
      ((activateDot0 (hideExtraDots c.dots (parseTotal c.totalAttr))).getD j dDefault).bgBlack
        = ((c.dots.getD j dDefault).bgBlack) ∧
      ((activateDot0 (hideExtraDots c.dots (parseTotal c.totalAttr))).getD j dDefault).bgBlack20
        = ((c.dots.getD j dDefault).bgBlack20) := by
    intro j hj
    obtain ⟨m, rfl⟩ : ∃ m, j = m + 1 := ⟨j - 1, by omega⟩
    rw [getD_activateDot0_succ]
    exact getD_hideExtraDots_bg c.dots (parseTotal c.totalAttr) (m + 1)
  refine ⟨hpt, ?_, ?_, ?_, ?_, ?_, ?_, ?_⟩ <;> dsimp only
  · omega
  · omega
  · omega
  · rw [hlen]
    omega
  · intro j hjlen hjtot
    rw [hlen] at hjlen
    cases j with
    | zero =>
      obtain ⟨hb, hb20⟩ :=
        getD_activateDot0_zero (hideExtraDots c.dots (parseTotal c.totalAttr))
          (by intro hnil
              apply hne
              rw [activateDot0.eq_def, hnil])
      rw [hb, hb20]
      constructor <;> simp
      | succ m =>
      obtain ⟨hb, hb20⟩ := hgd (m + 1) (by omega)
      rw [hb, hb20, hd, getD_replicate_dot]
      rw [if_pos hjlen]
      have hne0 : (((m + 1 : Nat) : Int) == (0 : Int)) = false := by
        simp only [beq_eq_false_iff_ne, ne_eq]
        omega
      rw [hne0]
      exact ⟨rfl, rfl⟩
  · intro j hjlen hjtot
    have hj1 : 1 ≤ j := by
      rw [hpt] at hjtot
      omega
    obtain ⟨hb, _⟩ := hgd j hj1
    rw [hb, hd, getD_replicate_dot]
    split <;> rfl
  · rw [if_neg (by simp)]
    constructor
    · rw [hi]
      rfl
    · rfl

end InitLemmas

lemma wCont_widget : (initContainer wCont).widget = some wState := by decide

lemma wState_WF : WF wState :=
  ⟨by decide, by decide, by decide, by decide, by decide, by decide, by decide, by decide⟩

/-- C1: with the container width W positive and N = totalImages at least
2, a handled pointer-move at offset x relative to the container left
edge calls the update function exactly on the index
clamp(floor(x / (W / N)), 0, N - 1); in particular any instance with
totalImages = 3 ends at active index 1 after a pointer-move with
W = 300 and x = 150. -/
theorem c1_pointer_zone_mapping (s : CarouselState) (W x : ℚ)
    (hW : 0 < W) (hN : 2 ≤ s.totalImages) :
    mousemoveHandler s W x false
      = updateCarousel s
          (max 0 (min ⌊x / (W / (s.totalImages : ℚ))⌋ (s.totalImages - 1))) ∧
    ∀ s3 : CarouselState, s3.totalImages = 3 →
      (mousemoveHandler s3 300 150 false).currentIndex = 1 := by
  constructor
  · exact mousemoveHandler_eq s W x (ne_of_gt hW)
  · intro s3 h3
    rw [mousemoveHandler_eq s3 300 150 (by norm_num)]
    have hidx : (max 0 (min ⌊(150 : ℚ) / (300 / (s3.totalImages : ℚ))⌋ (s3.totalImages - 1)))
        = 1 := by
      rw [h3]
      norm_num
    rw [hidx]
    exact updateCarousel_cur s3 1 (by norm_num) (by rw [h3]; norm_num)

/-- Witness for C1 at the concrete scenario of the spec: width 300,
three images, pointer at x = 150. -/
theorem c1_pointer_zone_mapping_witness :
    (mousemoveHandler wState 300 150 false
      = updateCarousel wState
          (max 0 (min ⌊(150 : ℚ) / (300 / (wState.totalImages : ℚ))⌋
            (wState.totalImages - 1)))) ∧
    (mousemoveHandler wState 300 150 false).currentIndex = 1 :=
  ⟨(c1_pointer_zone_mapping wState 300 150 (by norm_num) (by decide)).1,
   (c1_pointer_zone_mapping wState 300 150 (by norm_num) (by decide)).2 wState rfl⟩

/-- C2 counterexample: the claim says a container whose image list fails
to parse is left uninitialized, but the source sets the
data-initialized attribute before parsing, so after initialization the
attribute is set on this concrete parse-failing container. -/
theorem c2_parse_failure_counterexample :
    ¬ ((initContainer
        { parsedImages := none, totalAttr := some 3, marked := false,
          hasCard := true, dots := [specDot, specDot, specDot],
          images := [specPrimaryImg "a.jpg"] }).container.marked = false) := by
  decide

/-- C2 amended: on a parse failure the initializer logs the error,
leaves the container dots and images untouched, builds no interactive
closure, lets no exception escape (the modelled initializer is total),
and processes every container of a scope independently; however it does
mark the container initialized rather than leaving it uninitialized. -/
theorem c2_parse_failure_amended (c : Container)
    (hm : c.marked = false) (hc : c.hasCard = true) (hp : c.parsedImages = none) :
    (initContainer c).loggedError = true ∧
    (initContainer c).container.dots = c.dots ∧
    (initContainer c).container.images = c.images ∧
    (initContainer c).widget = none ∧
    (initContainer c).container.marked = true ∧
    ∀ (cs : List Container) (i : Nat), (initCarousels cs)[i]? = (cs[i]?).map initContainer := by
  rw [initContainer, if_neg (by simp [hm]), if_neg (by simp [hc]), hp]
  refine ⟨rfl, rfl, rfl, rfl, rfl, ?_⟩
  intro cs i
  rw [initCarousels, List.getElem?_map]

/-- Witness for C2 amended at a concrete parse-failing container. -/
theorem c2_parse_failure_amended_witness :
    (initContainer
      { parsedImages := none, totalAttr := none, marked := false,
        hasCard := true, dots := [specDot], images := [] }).loggedError = true ∧
    (initContainer
      { parsedImages := none, totalAttr := none, marked := false,
        hasCard := true, dots := [specDot], images := [] }).container.dots = [specDot] ∧
    (initContainer
      { parsedImages := none, totalAttr := none, marked := false,
        hasCard := true, dots := [specDot], images := [] }).container.images = [] ∧
    (initContainer
      { parsedImages := none, totalAttr := none, marked := false,
        hasCard := true, dots := [specDot], images := [] }).widget = none ∧
    (initContainer
      { parsedImages := none, totalAttr := none, marked := false,
        hasCard := true, dots := [specDot], images := [] }).container.marked = true ∧
    ∀ (cs : List Container) (i : Nat), (initCarousels cs)[i]? = (cs[i]?).map initContainer :=
  c2_parse_failure_amended _ rfl rfl rfl

/-- C3: on a not-yet-loaded instance whose container holds exactly the
primary image (index 0, top stacking, the shared positioning classes),
loadImages is idempotent, appends exactly the lazily inserted images,
each inserted image carries the primary positioning classes with bottom
stacking and the URL of its index, and after two invocations exactly
one img element exists per non-primary URL index. -/
theorem c3_loadImages_once (s : CarouselState) (p : Img)
    (hload : s.imagesLoaded = false) (himg : s.images = [p])
    (hpos : p.pos = lazyPosClasses) (hz : p.z10 = true) (hidx : p.idx = 0) :
    loadImages (loadImages s) = loadImages s ∧
    (loadImages s).images = p :: insertedImages s.imagesUrl ∧
    (∀ im ∈ insertedImages s.imagesUrl,
        im.pos = p.pos ∧ im.z10 = false ∧ 1 ≤ im.idx ∧
        im.src = s.imagesUrl.getD im.idx.toNat "") ∧
    (∀ j : Nat, 1 ≤ j → j < s.imagesUrl.length →
        ((loadImages (loadImages s)).images.filter
          (fun im => im.idx == (j : Int))).length = 1) := by
  have hB : (loadImages s).images = p :: insertedImages s.imagesUrl := by
    rw [loadImages, if_neg (by simp [hload]), himg]
    rfl
  refine ⟨loadImages_idem s, hB, ?_, ?_⟩
  · intro im hmem
    obtain ⟨i, hi, rfl⟩ := List.mem_map.mp hmem
    obtain ⟨hi1, _⟩ := mem_natRange.mp hi
    refine ⟨by rw [hpos], rfl, by simp; omega, ?_⟩
    show s.imagesUrl.getD i "" = s.imagesUrl.getD ((i : Int)).toNat ""
    simp
  · intro j hj1 hjL
    rw [loadImages_idem s, hB]
    simp only [List.filter_cons]
    have hpj : (p.idx == (j : Int)) = false := by
      simp only [beq_eq_false_iff_ne, ne_eq, hidx]
      omega
    rw [hpj]
    simp only [Bool.false_eq_true, if_false]
    have h1 := length_filter_of_map (natRange 1 (s.imagesUrl.length - 1))
      (fun (i : Nat) =>
        ({ idx := (i : Int), src := s.imagesUrl.getD i "", pos := lazyPosClasses,
           z10 := false } : Img))
      (fun (i : Nat) => (i : Int) == (j : Int)) (fun im => im.idx == (j : Int))
      (fun i => rfl)
    rw [insertedImages, ← h1, length_filter_natRange]
    rw [if_pos (by push_cast; omega)]

/-- Witness for C3 at the concrete three-image state. -/
theorem c3_loadImages_once_witness :
    loadImages (loadImages wState) = loadImages wState ∧
    (loadImages wState).images = specPrimaryImg "a.jpg" :: insertedImages wState.imagesUrl ∧
    (∀ im ∈ insertedImages wState.imagesUrl,
        im.pos = (specPrimaryImg "a.jpg").pos ∧ im.z10 = false ∧ 1 ≤ im.idx ∧
        im.src = wState.imagesUrl.getD im.idx.toNat "") ∧
    (∀ j : Nat, 1 ≤ j → j < wState.imagesUrl.length →
        ((loadImages (loadImages wState)).images.filter
          (fun im => im.idx == (j : Int))).length = 1) :=
  c3_loadImages_once wState (specPrimaryImg "a.jpg") rfl rfl rfl rfl rfl

/-- C4: updateCarousel called with the current index or an out-of-range
index returns the state unchanged in every component. -/
theorem c4_setActive_noop (s : CarouselState) (i : Int)
    (h : i = s.currentIndex ∨ i < 0 ∨ s.totalImages ≤ i) :
    updateCarousel s i = s := by
  rw [updateCarousel, if_pos h]

/-- Witness for C4: the current index, a negative index and an index at
totalImages all leave the concrete state unchanged. -/
theorem c4_setActive_noop_witness :
    updateCarousel wState 0 = wState ∧
    updateCarousel wState (-1) = wState ∧
    updateCarousel wState 3 = wState :=
  ⟨c4_setActive_noop wState 0 (Or.inl rfl),
   c4_setActive_noop wState (-1) (Or.inr (Or.inl (by norm_num))),
   c4_setActive_noop wState 3 (Or.inr (Or.inr (by decide)))⟩

/-- C5: on a well-formed instance, updateCarousel at an in-range index i
different from the current one sets the current index to i, forces the
lazy load (the flag ends true, and when it started false the container
ends with one img per URL), promotes image i to top stacking while
every other image, the previous one included, is demoted, and gives dot
i alone the active styling among the first totalImages dots. -/
theorem c5_setActive_updates (s : CarouselState) (i : Int) (h : WF s)
    (hne : i ≠ s.currentIndex) (h0 : 0 ≤ i) (hN : i < s.totalImages) :
    (updateCarousel s i).currentIndex = i ∧
    (updateCarousel s i).imagesLoaded = true ∧
    (updateCarousel s i).images.map projZ = zTemplate s.imagesUrl.length i ∧
    (∀ j : Nat, j < (updateCarousel s i).dots.length → (j : Int) < s.totalImages →
        ((updateCarousel s i).dots.getD j dDefault).bgBlack = ((j : Int) == i)) ∧
    (s.imagesLoaded = false → (updateCarousel s i).images.length = s.imagesUrl.length) := by
  have hWF2 := updateCarousel_WF s i h
  have hcur := updateCarousel_cur s i h0 hN
  have hloaded := updateCarousel_active_loaded s i h hne h0 hN
  have hurl := updateCarousel_imagesUrl s i
  have htot := updateCarousel_totalImages s i
  have hmap : (updateCarousel s i).images.map projZ = zTemplate s.imagesUrl.length i := by
    have hh := hWF2.imgs
    rw [if_pos hloaded, hcur, hurl] at hh
    exact hh
  refine ⟨hcur, hloaded, hmap, ?_, ?_⟩
  · intro j hjlen hjtot
    obtain ⟨hb, _⟩ := hWF2.dots_in j hjlen (by rw [htot]; exact hjtot)
    rw [hb, hcur]
  · intro _
    have := congrArg List.length hmap
    rw [List.length_map] at this
    rw [this, zTemplate, List.length_map, length_natRange]

/-- Witness for C5: moving the concrete instance from index 0 to 2. -/
theorem c5_setActive_updates_witness :
    (updateCarousel wState 2).currentIndex = 2 ∧
    (updateCarousel wState 2).imagesLoaded = true ∧
    (updateCarousel wState 2).images.map projZ = zTemplate wState.imagesUrl.length 2 ∧
    (∀ j : Nat, j < (updateCarousel wState 2).dots.length → (j : Int) < wState.totalImages →
        ((updateCarousel wState 2).dots.getD j dDefault).bgBlack = ((j : Int) == 2)) ∧
    (wState.imagesLoaded = false →
        (updateCarousel wState 2).images.length = wState.imagesUrl.length) :=
  c5_setActive_updates wState 2 wState_WF (by decide) (by decide) (by decide)

/-- C6: a container whose effective total image count is at most 1 is
initialized without interactivity (no closure, hence no listeners and
no lazy loading, and no error logged), and its first dot, when present,
receives the active styling. -/
theorem c6_single_image (c : Container) (urls : List String)
    (hm : c.marked = false) (hc : c.hasCard = true)
    (hp : c.parsedImages = some urls) (ht : parseTotal c.totalAttr ≤ 1) :
    (initContainer c).widget = none ∧
    (initContainer c).loggedError = false ∧
    (initContainer c).container.images = c.images ∧
    (c.dots ≠ [] →
      ((initContainer c).container.dots.getD 0 dDefault).bgBlack = true ∧
      ((initContainer c).container.dots.getD 0 dDefault).bgBlack20 = false) := by
  rw [init_nonInteractive c urls hm hc hp ht]
  refine ⟨rfl, rfl, rfl, ?_⟩
  intro hne
  refine getD_activateDot0_zero _ ?_
  intro hnil
  have := congrArg List.length hnil
  rw [length_hideExtraDots] at this
  simp only [List.length_nil] at this
  exact hne (List.length_eq_zero.mp this)

/-- Witness for C6 at a concrete single-image container with one dot. -/
theorem c6_single_image_witness :
    (initContainer
      { parsedImages := some ["a.jpg"], totalAttr := some 1, marked := false,
        hasCard := true, dots := [specDot], images := [specPrimaryImg "a.jpg"] }).widget
      = none ∧
    (initContainer
      { parsedImages := some ["a.jpg"], totalAttr := some 1, marked := false,
        hasCard := true, dots := [specDot], images := [specPrimaryImg "a.jpg"] }).loggedError
      = false ∧
    (initContainer
      { parsedImages := some ["a.jpg"], totalAttr := some 1, marked := false,
        hasCard := true, dots := [specDot],
        images := [specPrimaryImg "a.jpg"] }).container.images = [specPrimaryImg "a.jpg"] ∧
    ([specDot] ≠ ([] : List Dot) →
      ((initContainer
        { parsedImages := some ["a.jpg"], totalAttr := some 1, marked := false,
          hasCard := true, dots := [specDot],
          images := [specPrimaryImg "a.jpg"] }).container.dots.getD 0 dDefault).bgBlack = true ∧
      ((initContainer
        { parsedImages := some ["a.jpg"], totalAttr := some 1, marked := false,
          hasCard := true, dots := [specDot],
          images := [specPrimaryImg "a.jpg"] }).container.dots.getD 0 dDefault).bgBlack20
        = false) :=
  c6_single_image _ ["a.jpg"] rfl rfl rfl (by decide)

/-- C7: after the initializer has processed a container the
data-initialized attribute is set, and running the initializer again on
that container is a complete no-op: the container is returned untouched,
no closure is built (so no listeners are attached and no images are
inserted), and nothing is logged. -/
theorem c7_reinit_noop (c : Container) :
    (initContainer c).container.marked = true ∧
    initContainer ((initContainer c).container)
      = { container := (initContainer c).container, widget := none, loggedError := false } := by
  have hmarked : ∀ d : Container, d.marked = true →
      initContainer d = { container := d, widget := none, loggedError := false } := by
    intro d hd
    rw [initContainer, if_pos hd]
  have hm : (initContainer c).container.marked = true := by
    rw [initContainer]
    by_cases h1 : c.marked = true
    · rw [if_pos h1]
      exact h1
    · rw [if_neg h1]
      by_cases h2 : c.hasCard = true
      · rw [if_neg (by simp [h2])]
        rcases hp : c.parsedImages with _ | urls
        · rfl
        · dsimp only
          by_cases h3 : parseTotal c.totalAttr ≤ 1
          · rw [if_pos h3]
          · rw [if_neg h3]
      · have h2' : c.hasCard = false := by simpa using h2
        rw [if_pos (by simp [h2'])]
  exact ⟨hm, hmarked _ hm⟩

/-- C8: any interactive instance the initializer hands out starts at
current index 0, and after any sequence of events (pointer enters and
leaves, dot clicks on any index, pointer moves at any width, offset and
overlay flag) the current index stays within [0, totalImages - 1]. -/
theorem c8_index_bounds (c : Container) (s0 : CarouselState) (trace : List Event)
    (h : (initContainer c).widget = some s0) :
    s0.currentIndex = 0 ∧
    0 ≤ (trace.foldl step s0).currentIndex ∧
    (trace.foldl step s0).currentIndex < (trace.foldl step s0).totalImages := by
  obtain ⟨hm, hc, urls, hp, ht, hs⟩ := initContainer_widget_some c s0 h
  have hinv : IdxInv s0 := by
    rw [hs]
    exact ⟨le_refl 0, by dsimp only; omega⟩
  have hfin := foldl_step_IdxInv s0 trace hinv
  exact ⟨by rw [hs], hfin.1, hfin.2⟩

/-- Witness for C8: a concrete trace with a hover, an in-range click, a
pointer exit and an out-of-range click. -/
theorem c8_index_bounds_witness :
    wState.currentIndex = 0 ∧
    0 ≤ (([Event.mouseenter, Event.dotClick 2, Event.mouseleave,
          Event.dotClick 7].foldl step wState)).currentIndex ∧
    (([Event.mouseenter, Event.dotClick 2, Event.mouseleave,
          Event.dotClick 7].foldl step wState)).currentIndex
      < (([Event.mouseenter, Event.dotClick 2, Event.mouseleave,
          Event.dotClick 7].foldl step wState)).totalImages :=
  c8_index_bounds wCont wState _ wCont_widget

/-- C9: an instance initialized on the spec-modelled markup (inactive
dots, at least as many as images, eagerly rendered primary image on
top, total matching the parsed URL count) keeps, after any event
sequence, exactly one img element with top stacking, namely the one at
the current index, and exactly one dot with the active styling, namely
the one at the current index. -/
theorem c9_unique_active (c : Container) (urls : List String) (src0 : String) (dn : Nat)
    (s0 : CarouselState) (trace : List Event)
    (hm : c.marked = false) (hc : c.hasCard = true) (hp : c.parsedImages = some urls)
    (ht : c.totalAttr = some ((filterUrls urls).length : Int))
    (hL : 2 ≤ (filterUrls urls).length)
    (hd : c.dots = List.replicate dn specDot)
    (hdn : (filterUrls urls).length ≤ dn)
    (hi : c.images = [specPrimaryImg src0])
    (hw : (initContainer c).widget = some s0) :
    (((trace.foldl step s0).images.filter fun im => im.z10).length = 1) ∧
    (∀ im ∈ (trace.foldl step s0).images, im.z10 = true →
        im.idx = (trace.foldl step s0).currentIndex) ∧
    (((trace.foldl step s0).dots.filter fun d => d.bgBlack).length = 1) ∧
    ((trace.foldl step s0).dots.getD
        (trace.foldl step s0).currentIndex.toNat dDefault).bgBlack = true := by
  obtain ⟨_, _, urls2, hp2, _, hs⟩ := initContainer_widget_some c s0 hw
  rw [hp] at hp2
  have hurls : urls2 = urls := (Option.some_inj.mp hp2).symm
  rw [hurls] at hs
  have hWF0 : WF s0 := init_WF c urls src0 dn s0 ht hL hd hdn hi hs
  have hWFn := foldl_step_WF s0 trace hWF0
  obtain ⟨hi1, hi2⟩ := images_conclusions_of_WF _ hWFn
  obtain ⟨hd1, hd2⟩ := dots_conclusions_of_WF _ hWFn
  exact ⟨hi1, hi2, hd1, hd2⟩

/-- Witness for C9: the concrete three-image card after a hover, a
click on dot 1 and a pointer exit. -/
theorem c9_unique_active_witness :
    ((([Event.mouseenter, Event.dotClick 1,
        Event.mouseleave].foldl step wState).images.filter fun im => im.z10).length = 1) ∧
    (∀ im ∈ ([Event.mouseenter, Event.dotClick 1,
        Event.mouseleave].foldl step wState).images, im.z10 = true →
        im.idx = ([Event.mouseenter, Event.dotClick 1,
          Event.mouseleave].foldl step wState).currentIndex) ∧
    ((([Event.mouseenter, Event.dotClick 1,
        Event.mouseleave].foldl step wState).dots.filter fun d => d.bgBlack).length = 1) ∧
    (([Event.mouseenter, Event.dotClick 1,
        Event.mouseleave].foldl step wState).dots.getD
        ([Event.mouseenter, Event.dotClick 1,
          Event.mouseleave].foldl step wState).currentIndex.toNat dDefault).bgBlack = true :=
  c9_unique_active wCont ["a.jpg", "b.jpg", "c.jpg"] "a.jpg" 3 wState _
    rfl rfl rfl (by decide) (by decide) rfl (by decide) rfl wCont_widget

/-- C10: when data-total-images is missing or does not parse
(parseInt gives NaN), the effective total is 1 and the container is
initialized in the non-interactive single-image shape, with the first
dot, when present, activated, regardless of how many URLs the parsed
image list holds. -/
theorem c10_total_fallback (c : Container) (urls : List String)
    (hm : c.marked = false) (hc : c.hasCard = true)
    (hp : c.parsedImages = some urls) (ht : c.totalAttr = none) :
    parseTotal c.totalAttr = 1 ∧
    (initContainer c).widget = none ∧
    (initContainer c).loggedError = false ∧
    (c.dots ≠ [] →
      ((initContainer c).container.dots.getD 0 dDefault).bgBlack = true ∧
      ((initContainer c).container.dots.getD 0 dDefault).bgBlack20 = false) := by
  have h1 : parseTotal c.totalAttr = 1 := by
    rw [ht]
    rfl
  rw [init_nonInteractive c urls hm hc hp (by omega)]
  refine ⟨h1, rfl, rfl, ?_⟩
  intro hne
  refine getD_activateDot0_zero _ ?_
  intro hnil
  have hlen := congrArg List.length hnil
  rw [length_hideExtraDots] at hlen
  simp only [List.length_nil] at hlen
  exact hne (List.length_eq_zero.mp hlen)

/-- Witness for C10: a container with five URLs but no usable
data-total-images attribute stays non-interactive. -/
theorem c10_total_fallback_witness :
    parseTotal (Container.totalAttr
      { parsedImages := some ["a", "b", "c", "d", "e"], totalAttr := none, marked := false,
        hasCard := true, dots := [specDot, specDot], images := [specPrimaryImg "a"] }) = 1 ∧
    (initContainer
      { parsedImages := some ["a", "b", "c", "d", "e"], totalAttr := none, marked := false,
        hasCard := true, dots := [specDot, specDot], images := [specPrimaryImg "a"] }).widget
      = none ∧
    (initContainer
      { parsedImages := some ["a", "b", "c", "d", "e"], totalAttr := none, marked := false,
        hasCard := true, dots := [specDot, specDot],
        images := [specPrimaryImg "a"] }).loggedError = false ∧
    ([specDot, specDot] ≠ ([] : List Dot) →
      ((initContainer
        { parsedImages := some ["a", "b", "c", "d", "e"], totalAttr := none, marked := false,
          hasCard := true, dots := [specDot, specDot],
          images := [specPrimaryImg "a"] }).container.dots.getD 0 dDefault).bgBlack = true ∧
      ((initContainer
        { parsedImages := some ["a", "b", "c", "d", "e"], totalAttr := none, marked := false,
          hasCard := true, dots := [specDot, specDot],
          images := [specPrimaryImg "a"] }).container.dots.getD 0 dDefault).bgBlack20
        = false) :=
  c10_total_fallback _ ["a", "b", "c", "d", "e"] rfl rfl rfl rfl

end Carousel
